import Mathlib

/-!
Shallow embedding of the input-parsing core of `batio` (`src/batio/vt100_terminal.py`
and `src/batio/events.py`): the VT100 escape-sequence decoder state machine, its
finalization procedure, the device-status-report (DSR) request queue, and the output
encoder entry points the claims touch.

Python strings are modelled as `List Char`; `perf_counter` timestamps as `ℤ`
(integer milliseconds, an order-faithful rescaling of the float seconds);
`StringIO` buffers as `Option (List Char)` (`none` = Python `None`).  Operations
that would raise in Python (attribute access on `None`, `int("")`) return `none`.
-/

namespace Batio

/-- Python strings are modelled as lists of characters. -/
abbrev Chars := List Char

/-- Convert a Lean string literal to the character-list model. -/
def lit (s : String) : Chars := s.data

/-- ParserState enum from vt100_terminal.py. -/
inductive ParserState where
  | GROUND
  | ESCAPE
  | CSI
  | OSC
  | PARAMS
  | PASTE
  | EXECUTE_NEXT
deriving DecidableEq

/-- MouseButton literal type from events.py. -/
inductive MouseButton where
  | left
  | middle
  | right
  | no_button
deriving DecidableEq

/-- MouseEventType literal type from events.py. -/
inductive MouseEventType where
  | mouse_down
  | mouse_move
  | mouse_up
  | scroll_down
  | scroll_up
deriving DecidableEq

/-- Focus kind, the `"in"` and `"out"` literals of FocusEvent in events.py. -/
inductive FocusKind where
  | focus_in
  | focus_out
deriving DecidableEq

/-- Color report kind, the `"fg"` and `"bg"` literals of ColorReportEvent. -/
inductive ColorKind where
  | fg
  | bg
deriving DecidableEq

/-- Pixel geometry report kind, the `"cell"` and `"terminal"` literals. -/
inductive GeometryKind where
  | cell
  | terminal
deriving DecidableEq

/-- The event variants of events.py.  `Point` fields are `(x, y)` pairs of
integers, mirroring the `Point` NamedTuple whose first field is `x`. -/
inductive Event where
  | UnknownEscapeSequence (escape : Chars)
  | CursorPositionResponseEvent (pos : ℤ × ℤ)
  | KeyEvent (key : Chars) (alt ctrl shift : Bool)
  | MouseEvent (pos : ℤ × ℤ) (button : MouseButton) (eventType : MouseEventType)
      (alt ctrl shift : Bool) (dx dy : ℤ) (nclicks : ℕ)
  | PasteEvent (paste : Chars)
  | FocusEvent (focus : FocusKind)
  | ColorReportEvent (kind : ColorKind) (color : ℕ × ℕ × ℕ)
  | DeviceAttributesReportEvent (attributes : Finset ℕ)
  | PixelGeometryReportEvent (kind : GeometryKind) (geometry : ℕ × ℕ)
deriving DecidableEq

/-- BRACKETED_PASTE_START constant. -/
def BRACKETED_PASTE_START : Chars := lit "\x1b[200~"

/-- BRACKETED_PASTE_END constant. -/
def BRACKETED_PASTE_END : Chars := lit "\x1b[201~"

/-- FOCUS_IN constant. -/
def FOCUS_IN : Chars := lit "\x1b[I"

/-- FOCUS_OUT constant. -/
def FOCUS_OUT : Chars := lit "\x1b[O"

/-- ESCAPE_TIMEOUT constant: 0.05 seconds.  Timestamps (`perf_counter`
values) are modelled as integers in milliseconds, so the constant is 50. -/
def ESCAPE_TIMEOUT : ℤ := 50

/-- DRS_REQUEST_TIMEOUT constant: 0.1 seconds, i.e. 100 in the millisecond
model; the source spells it DRS. -/
def DRS_REQUEST_TIMEOUT : ℤ := 100

/-- PARAMS_RE: a single character matching the class of digits and semicolon. -/
def isParamChar (c : Char) : Bool := c.isDigit || c == ';'

/-- Lowercase hex digit, as used by the color-report regex. -/
def isHexLower (c : Char) : Bool := c.isDigit || ('a' ≤ c && c ≤ 'f')

/-- Value of a decimal digit string (regex groups are nonempty digit runs). -/
def digitsToNat (ds : Chars) : ℕ :=
  ds.foldl (fun n c => 10 * n + (c.toNat - '0'.toNat)) 0

/-- Value of a single lowercase hex digit. -/
def hexVal (c : Char) : ℕ :=
  if c.isDigit then c.toNat - '0'.toNat else c.toNat - 'a'.toNat + 10

/-- Python `int(s, 16)` on a two-character lowercase hex string. -/
def hexPairToNat (a b : Char) : ℕ := 16 * hexVal a + hexVal b

/-- Parse a maximal nonempty digit run (the greedy `\d+` of an anchored regex);
returns the run and the rest, or `none` when the input does not start with a
digit. -/
def takeDigits (s : Chars) : Option (Chars × Chars) :=
  let p := s.span Char.isDigit
  if p.1.isEmpty then none else some p

/-- CPR_RE: full match of ESC `[` digits `;` digits `R`, returning the two
numeric groups in order of appearance (row group first, as in the source). -/
def parseCPR (s : Chars) : Option (ℕ × ℕ) :=
  match s with
  | '\x1b' :: '[' :: rest =>
    match takeDigits rest with
    | none => none
    | some (d1, rest1) =>
      match rest1 with
      | ';' :: rest2 =>
        match takeDigits rest2 with
        | none => none
        | some (d2, rest3) =>
          if rest3 = ['R'] then some (digitsToNat d1, digitsToNat d2) else none
      | _ => none
  | _ => none

/-- MOUSE_SGR_RE: full match of ESC `[` `<` digits `;` digits `;` digits
(`m` or `M`), returning the three numeric groups and the final character. -/
def parseMouseSGR (s : Chars) : Option (ℕ × ℕ × ℕ × Char) :=
  match s with
  | '\x1b' :: '[' :: '<' :: rest =>
    match takeDigits rest with
    | none => none
    | some (d1, rest1) =>
      match rest1 with
      | ';' :: rest2 =>
        match takeDigits rest2 with
        | none => none
        | some (d2, rest3) =>
          match rest3 with
          | ';' :: rest4 =>
            match takeDigits rest4 with
            | none => none
            | some (d3, rest5) =>
              match rest5 with
              | [c] =>
                if c = 'm' ∨ c = 'M' then
                  some (digitsToNat d1, digitsToNat d2, digitsToNat d3, c)
                else none
              | _ => none
          | _ => none
      | _ => none
  | _ => none

/-- COLOR_RE: full match of ESC `]` `1` (`1`|`0`) `;rgb:` hhhh `/` hhhh `/`
hhhh ESC `\`, returning the kind character and the three four-hex-digit
groups. -/
def parseColor (s : Chars) : Option (Char × Chars × Chars × Chars) :=
  match s with
  | '\x1b' :: ']' :: '1' :: k :: ';' :: 'r' :: 'g' :: 'b' :: ':' :: rest =>
    if k = '1' ∨ k = '0' then
      match rest with
      | r1 :: r2 :: r3 :: r4 :: '/' :: g1 :: g2 :: g3 :: g4 :: '/'
          :: b1 :: b2 :: b3 :: b4 :: '\x1b' :: '\\' :: [] =>
        if ([r1, r2, r3, r4] ++ [g1, g2, g3, g4] ++ [b1, b2, b3, b4]).all isHexLower
        then some (k, [r1, r2, r3, r4], [g1, g2, g3, g4], [b1, b2, b3, b4])
        else none
      | _ => none
    else none
  | _ => none

/-- DEVICE_ATTRIBUTES_RE: full match of ESC `[` `?` [0-9;]+ `c`, returning the
inner parameter characters (the slice `[3:-1]` taken by the source). -/
def parseDeviceAttributes (s : Chars) : Option Chars :=
  match s with
  | '\x1b' :: '[' :: '?' :: rest =>
    match rest.reverse with
    | 'c' :: revBody =>
      let body := revBody.reverse
      if body ≠ [] ∧ body.all isParamChar then some body else none
    | _ => none
  | _ => none

/-- PIXEL_GEOMETRY_RE: full match of ESC `[` (class `6`, `|`, `4`) `;` digits
`;` digits `t`; the character class of the source regex literally contains the
bar character. -/
def parsePixelGeometry (s : Chars) : Option (Char × ℕ × ℕ) :=
  match s with
  | '\x1b' :: '[' :: k :: ';' :: rest =>
    if k = '6' ∨ k = '|' ∨ k = '4' then
      match takeDigits rest with
      | none => none
      | some (d1, rest1) =>
        match rest1 with
        | ';' :: rest2 =>
          match takeDigits rest2 with
          | none => none
          | some (d2, rest3) =>
            if rest3 = ['t'] then some (k, digitsToNat d1, digitsToNat d2) else none
        | _ => none
    else none
  | _ => none

/-- Python `s.split(";")` on the character-list model. -/
def pySplitSemicolon (s : Chars) : List Chars :=
  match s with
  | [] => [[]]
  | ';' :: rest => [] :: pySplitSemicolon rest
  | c :: rest =>
    match pySplitSemicolon rest with
    | [] => [[c]]
    | seg :: segs => (c :: seg) :: segs

/-- Modelled from the spec: the source imports `ANSI_ESCAPES` from
`batio.ansi_escapes`, a module not present in the sources.  Per the spec it is
"a fixed table mapping complete escape strings to named special keys"
(arrows, function keys, Home/End/PageUp/PageDown, Insert/Delete/Backspace/
Enter/Escape/Tab), consulted by exact match during generic classification; an
entry yields a KeyEvent with the named key and modifier flags.  The table below
lists the entries the spec names explicitly; no claim depends on the exact set
of entries. -/
def ANSI_ESCAPES : List (Chars × (Chars × Bool × Bool × Bool)) :=
  [ (lit "\x1b", (lit "escape", false, false, false)),
    (lit "\x7f", (lit "backspace", false, false, false)),
    (lit "\x0a", (lit "enter", false, false, false)),
    (lit "\x0d", (lit "enter", false, false, false)),
    (lit "\x09", (lit "tab", false, false, false)),
    (lit "\x1b[A", (lit "up", false, false, false)),
    (lit "\x1b[B", (lit "down", false, false, false)),
    (lit "\x1b[C", (lit "right", false, false, false)),
    (lit "\x1b[D", (lit "left", false, false, false)),
    (lit "\x1b[F", (lit "end", false, false, false)),
    (lit "\x1b[H", (lit "home", false, false, false)),
    (lit "\x1b[2~", (lit "insert", false, false, false)),
    (lit "\x1b[3~", (lit "delete", false, false, false)),
    (lit "\x1b[5~", (lit "page_up", false, false, false)),
    (lit "\x1b[6~", (lit "page_down", false, false, false)),
    (lit "\x1bOP", (lit "f1", false, false, false)),
    (lit "\x1bOQ", (lit "f2", false, false, false)),
    (lit "\x1bOR", (lit "f3", false, false, false)),
    (lit "\x1bOS", (lit "f4", false, false, false)) ]

/-- Dictionary lookup `escape in ANSI_ESCAPES` / `ANSI_ESCAPES[escape]`. -/
def ansiLookup (e : Chars) : Option (Chars × Bool × Bool × Bool) :=
  (ANSI_ESCAPES.find? (fun p => p.1 == e)).map Prod.snd

/-- The parser-facing mutable state of a Vt100Terminal instance
(vt100_terminal.py `__init__`): parser state, escape and paste buffers, event
buffer, DSR request-time FIFO (front = oldest), last mouse coordinates, and
the output buffer.  The event handler is modelled as unattached (`None`). -/
structure TerminalState where
  state : ParserState
  escapeBuffer : Option Chars
  pasteBuffer : Option Chars
  eventBuffer : List Event
  dsrRequestTimes : List ℤ
  lastX : ℤ
  lastY : ℤ
  outBuffer : List Chars
deriving DecidableEq

/-- A state whose parser is in GROUND with both in-progress buffers unset, as
after construction or after a completed sequence. -/
def groundState (evbuf : List Event) (times : List ℤ) (lx ly : ℤ)
    (out : List Chars) : TerminalState :=
  { state := .GROUND, escapeBuffer := none, pasteBuffer := none,
    eventBuffer := evbuf, dsrRequestTimes := times, lastX := lx, lastY := ly,
    outBuffer := out }

/-- The state built by `Vt100Terminal.__init__`. -/
def initState : TerminalState := groundState [] [] 0 0 []

/-- Result of `_execute_dsr_request`: `matched e` means the method returned
True after appending event `e` and popping the oldest request; `noMatch` means
it returned False; `crash` marks the `int("")` ValueError raised when a device
attributes parameter between two semicolons is empty. -/
inductive DsrResult where
  | crash
  | noMatch
  | matched (e : Event)
deriving DecidableEq

/-- The reply-matching logic of `Vt100Terminal._execute_dsr_request`, tried in
source order: cursor-position report, color report, device attributes, pixel
geometry.  Note the source binds the CPR groups as `y, x` but passes them to
`Point` (whose fields are `x` then `y`) in that same order. -/
def executeDsrRequest (escape : Chars) : DsrResult :=
  match parseCPR escape with
  | some (y, x) =>
    .matched (.CursorPositionResponseEvent ((y : ℤ) - 1, (x : ℤ) - 1))
  | none =>
    match parseColor escape with
    | some (kind, r, g, b) =>
      .matched (.ColorReportEvent (if kind = '0' then .fg else .bg)
        (hexPairToNat (r.headI) (r.tail.headI),
         hexPairToNat (g.headI) (g.tail.headI),
         hexPairToNat (b.headI) (b.tail.headI)))
    | none =>
      match parseDeviceAttributes escape with
      | some body =>
        let segs := pySplitSemicolon body
        if segs.any List.isEmpty then .crash
        else .matched (.DeviceAttributesReportEvent (segs.map digitsToNat).toFinset)
      | none =>
        match parsePixelGeometry escape with
        | some (kind, height, width) =>
          .matched (.PixelGeometryReportEvent
            (if kind = '6' then .cell else .terminal) (height, width))
        | none => .noMatch

/-- The stale-request pruning loop at the top of `_execute`: pop from the
front while the oldest request is at least `DRS_REQUEST_TIMEOUT` old. -/
def pruneDsr (now : ℤ) (times : List ℤ) : List ℤ :=
  times.dropWhile (fun t => decide (DRS_REQUEST_TIMEOUT ≤ now - t))

/-- Index into the Python list `["left", "middle", "right", "no_button"]`. -/
def buttonOfNat (n : ℕ) : MouseButton :=
  if n = 0 then .left else if n = 1 then .middle
  else if n = 2 then .right else .no_button

/-- The generic-classification tail of `_execute` (everything after the DSR
branch): bracketed-paste start, focus markers, SGR mouse, ANSI escape table,
two-character alt sequences, and the unknown-escape fallback. -/
def executeGeneric (escape : Chars) (st : TerminalState) : TerminalState :=
  if escape = BRACKETED_PASTE_START then
    { st with state := .PASTE, pasteBuffer := some [] }
  else if escape = FOCUS_IN then
    { st with eventBuffer := st.eventBuffer ++ [.FocusEvent .focus_in] }
  else if escape = FOCUS_OUT then
    { st with eventBuffer := st.eventBuffer ++ [.FocusEvent .focus_out] }
  else
    match parseMouseSGR escape with
    | some (info, col, row, last) =>
      let x : ℤ := (col : ℤ) - 1
      let y : ℤ := (row : ℤ) - 1
      let dx := x - st.lastX
      let dy := y - st.lastY
      let button := buttonOfNat (info % 4)
      let eventType : MouseEventType :=
        if info &&& 64 ≠ 0 then (if info &&& 1 ≠ 0 then .scroll_down else .scroll_up)
        else if info &&& 32 ≠ 0 then .mouse_move
        else if last = 'm' then .mouse_up
        else if button = .no_button then .mouse_move else .mouse_down
      let button := if info &&& 64 ≠ 0 then .no_button else button
      let shift := info &&& 4 ≠ 0
      let alt := info &&& 8 ≠ 0
      let ctrl := info &&& 16 ≠ 0
      { st with
        lastX := x, lastY := y,
        eventBuffer := st.eventBuffer ++
          [.MouseEvent (x, y) button eventType alt ctrl shift dx dy 0] }
    | none =>
      match ansiLookup escape with
      | some (key, a, c, s) =>
        { st with eventBuffer := st.eventBuffer ++ [.KeyEvent key a c s] }
      | none =>
        match escape with
        | [_, c1] =>
          if 32 ≤ c1.toNat ∧ c1.toNat ≤ 126 then
            { st with eventBuffer := st.eventBuffer ++
              [.KeyEvent [c1] true false false] }
          else { st with eventBuffer := st.eventBuffer ++
            [.UnknownEscapeSequence escape] }
        | _ =>
          { st with eventBuffer := st.eventBuffer ++
            [.UnknownEscapeSequence escape] }

/-- `Vt100Terminal._execute`: reset to GROUND and clear the escape buffer,
prune stale DSR requests, try reply matching while a request is pending, and
otherwise classify generically.  `escape` is the accumulated escape-buffer
content; `now` stands for `perf_counter()`.  Returns `none` when the Python
code would raise. -/
def execute (now : ℤ) (escape : Chars) (st : TerminalState) :
    Option TerminalState :=
  let st := { st with state := .GROUND, escapeBuffer := none }
  let times := pruneDsr now st.dsrRequestTimes
  let st := { st with dsrRequestTimes := times }
  if times.isEmpty then some (executeGeneric escape st)
  else
    match executeDsrRequest escape with
    | .crash => none
    | .matched e =>
      some { st with dsrRequestTimes := times.tail,
                     eventBuffer := st.eventBuffer ++ [e] }
    | .noMatch => some (executeGeneric escape st)

/-- `Vt100Terminal._feed1`: feed a single character.  The branch order is the
branch order of the source; `none` models the AttributeError the source would
raise by writing to a buffer that is `None`. -/
def feed1 (now : ℤ) (c : Char) (st : TerminalState) : Option TerminalState :=
  if st.state = .OSC then
    match st.escapeBuffer with
    | none => none
    | some buf =>
      let buf := buf ++ [c]
      if c = '\\' ∧ (lit "\x1b\\").isSuffixOf buf then execute now buf st
      else some { st with escapeBuffer := some buf }
  else if st.state ≠ .PASTE ∧ c = '\x1b' then
    some { st with escapeBuffer := some ['\x1b'], state := .ESCAPE }
  else if st.state = .EXECUTE_NEXT then
    match st.escapeBuffer with
    | none => none
    | some buf => execute now (buf ++ [c]) st
  else if st.state = .PASTE then
    match st.pasteBuffer with
    | none => none
    | some buf =>
      let buf := buf ++ [c]
      if c = '~' ∧ BRACKETED_PASTE_END.isSuffixOf buf then
        some { st with
          eventBuffer := st.eventBuffer ++ [.PasteEvent (buf.take (buf.length - 6))],
          pasteBuffer := none, state := .GROUND }
      else some { st with pasteBuffer := some buf }
  else if st.state = .GROUND then
    if c.toNat < 0x20 ∨ c = '\x7f' ∨ c = '\x9b' then execute now [c] st
    else some { st with eventBuffer := st.eventBuffer ++
      [.KeyEvent [c] false false false] }
  else if st.state = .ESCAPE then
    match st.escapeBuffer with
    | none => none
    | some buf =>
      let buf := buf ++ [c]
      if c = '[' then some { st with escapeBuffer := some buf, state := .CSI }
      else if c = 'O' then
        some { st with escapeBuffer := some buf, state := .EXECUTE_NEXT }
      else if c = ']' then some { st with escapeBuffer := some buf, state := .OSC }
      else execute now buf st
  else if st.state = .CSI then
    match st.escapeBuffer with
    | none => none
    | some buf =>
      let buf := buf ++ [c]
      if c = '[' then
        some { st with escapeBuffer := some buf, state := .EXECUTE_NEXT }
      else if c = '<' then
        some { st with escapeBuffer := some buf, state := .PARAMS }
      else if ¬ isParamChar c then execute now buf st
      else some { st with escapeBuffer := some buf, state := .PARAMS }
  else
    match st.escapeBuffer with
    | none => none
    | some buf =>
      let buf := buf ++ [c]
      if ¬ isParamChar c then execute now buf st
      else some { st with escapeBuffer := some buf }

/-- The character-feeding loop of `Vt100Terminal._feed` (the timer handling is
modelled by when the caller invokes `resetEscape`); all characters of one
batch share the timestamp `now`. -/
def feedChars (now : ℤ) (cs : Chars) (st : TerminalState) :
    Option TerminalState :=
  cs.foldl (fun acc c => acc.bind (feed1 now c)) (some st)

/-- `Vt100Terminal._reset_escape`, run when the escape timeout fires: in PASTE,
strip a cut-off bracketed-paste end marker (detected from the first ESC in the
buffer) and emit the paste; otherwise finalize the escape buffer as-is.  The
event handler is unattached in this model, so the trailing handler call is a
no-op. -/
def resetEscape (now : ℤ) (st : TerminalState) : Option TerminalState :=
  if st.state = .PASTE then
    match st.pasteBuffer with
    | none => none
    | some paste =>
      let paste :=
        match paste.findIdx? (· = '\x1b') with
        | some i =>
          let ending := paste.drop i
          if BRACKETED_PASTE_END.take ending.length = ending then paste.take i
          else paste
        | none => paste
      some { st with pasteBuffer := none, state := .GROUND,
                     eventBuffer := st.eventBuffer ++ [.PasteEvent paste] }
  else
    match st.escapeBuffer with
    | none => none
    | some buf => execute now buf st

/-- `Vt100Terminal.events`: return the event buffer and reset it. -/
def events (st : TerminalState) : List Event × TerminalState :=
  (st.eventBuffer, { st with eventBuffer := [] })

/-- `Vt100Terminal.flush`: join and emit the output buffer (the returned
characters model the bytes written to stdout) and clear it. -/
def flush (st : TerminalState) : TerminalState × Chars :=
  ({ st with outBuffer := [] }, st.outBuffer.flatten)

/-- `Vt100Terminal._request_dsr`: record the request time, append the request
bytes to the output buffer, and flush. -/
def request_dsr (now : ℤ) (request : Chars) (st : TerminalState) :
    TerminalState × Chars :=
  flush { st with dsrRequestTimes := st.dsrRequestTimes ++ [now],
                  outBuffer := st.outBuffer ++ [request] }

/-- `Vt100Terminal.request_cursor_position_report`. -/
def request_cursor_position_report (now : ℤ) (st : TerminalState) :
    TerminalState × Chars :=
  request_dsr now (lit "\x1b[6n") st

/-- Decimal digits of a natural number, worker with structural fuel. -/
def natToCharsCore : ℕ → ℕ → Chars → Chars
  | 0, _, acc => acc
  | fuel + 1, n, acc =>
    let d := Char.ofNat (n % 10 + 48)
    if n < 10 then d :: acc else natToCharsCore fuel (n / 10) (d :: acc)

/-- Decimal representation of a natural number, as Python `str` renders it. -/
def natToChars (n : ℕ) : Chars := natToCharsCore (n + 1) n []

/-- Decimal representation of an integer, as a Python f-string renders it. -/
def intToChars (i : ℤ) : Chars :=
  if i < 0 then '-' :: natToChars i.natAbs else natToChars i.toNat

/-- `Vt100Terminal.cursor_position` formatting: the pair `pos` is `(x, y)` and
the emitted sequence is ESC `[` y+1 `;` x+1 `H`. -/
def cursorPositionEscape (pos : ℤ × ℤ) : Chars :=
  lit "\x1b[" ++ intToChars (pos.2 + 1) ++ [';'] ++ intToChars (pos.1 + 1) ++ ['H']

/-- `Vt100Terminal.cursor_position`: append the formatted sequence to the
output buffer. -/
def cursor_position (pos : ℤ × ℤ) (st : TerminalState) : TerminalState :=
  { st with outBuffer := st.outBuffer ++ [cursorPositionEscape pos] }

/-- An SGR mouse escape assembled from its parameter digit strings:
ESC `[` `<` info `;` x `;` y followed by the final `m` or `M`. -/
def mouseEscape (a b c : Chars) (last : Char) : Chars :=
  '\x1b' :: '[' :: '<' :: (a ++ ';' :: (b ++ ';' :: (c ++ [last])))

/-- Spec wording of the SGR button rule: `info mod 4` mapped to left, middle,
right, no-button. -/
def specMouseButton (info : ℕ) : MouseButton :=
  match info % 4 with
  | 0 => .left
  | 1 => .middle
  | 2 => .right
  | _ => .no_button

/-- Spec wording of the SGR event-type rule: bit 6 set forces a scroll event
(scroll-down when bit 0 is set, else scroll-up); else bit 5 set means
mouse-move; else a trailing lowercase `m` means mouse-up; else mouse-down
unless the button is no-button, in which case mouse-move. -/
def specMouseEventType (info : ℕ) (last : Char) : MouseEventType :=
  if info.testBit 6 then (if info.testBit 0 then .scroll_down else .scroll_up)
  else if info.testBit 5 then .mouse_move
  else if last = 'm' then .mouse_up
  else if specMouseButton info = .no_button then .mouse_move
  else .mouse_down

/-- Spec wording of the reported button: forced to no-button for scroll
events (bit 6). -/
def specMouseFinalButton (info : ℕ) : MouseButton :=
  if info.testBit 6 then .no_button else specMouseButton info

/-- The parser-state/buffer invariant of the decoder: a paste buffer exists
exactly in PASTE, and an escape buffer exists exactly in the five
escape-accumulating states. -/
def Inv (st : TerminalState) : Prop :=
  (st.pasteBuffer.isSome ↔ st.state = .PASTE) ∧
  (st.escapeBuffer.isSome ↔
    st.state = .ESCAPE ∨ st.state = .CSI ∨ st.state = .OSC ∨
    st.state = .PARAMS ∨ st.state = .EXECUTE_NEXT)

/-- States reachable from construction by feeding characters and by the
escape-timeout callback. -/
inductive Reachable : TerminalState → Prop where
  | init : Reachable initState
  | feed {st st' : TerminalState} {now : ℤ} {c : Char} :
      Reachable st → feed1 now c st = some st' → Reachable st'
  | timeout {st st' : TerminalState} {now : ℤ} :
      Reachable st → resetEscape now st = some st' → Reachable st'

/-- The state after feeding ESC `O` from the initial state: parser in
EXECUTE_NEXT with the two fed characters buffered. -/
def exNextState : TerminalState :=
  { state := .EXECUTE_NEXT, escapeBuffer := some (lit "\x1bO"),
    pasteBuffer := none, eventBuffer := [], dsrRequestTimes := [],
    lastX := 0, lastY := 0, outBuffer := [] }

/-- A state mid-paste whose buffer ends with a cut-off end marker: parser in
PASTE holding the characters `hi` ESC `[` `2` `0`. -/
def pasteCutState : TerminalState :=
  { state := .PASTE, escapeBuffer := none,
    pasteBuffer := some (lit "hi\x1b[20"), eventBuffer := [],
    dsrRequestTimes := [], lastX := 0, lastY := 0, outBuffer := [] }

/-- A ground state with two pending DSR requests, made at times 0 and 200. -/
def twoRequestState : TerminalState := groundState [] [0, 200] 0 0 []

/-- C1: a cursor-position report ESC `[` `5` `;` `3` `R` fed within the DSR
timeout of a `request_cursor_position_report` appends exactly one
CursorPositionResponseEvent and pops the pending request, but its pos is
(4, 2), not the (2, 4) the claim states: the source binds the groups as
`y, x` yet passes them to the x-then-y `Point` constructor in that order.
Fed after the timeout (request at 0, reply finalized at 200 ms), the bytes
are not matched as a reply and fall through to generic classification. -/
theorem C1_cpr_reply_coordinates_swapped :
    ((feedChars 0 (lit "\x1b[5;3R")
        (request_cursor_position_report 0 initState).1).map
      (fun s => (s.eventBuffer, s.dsrRequestTimes)) =
      some ([.CursorPositionResponseEvent (4, 2)], [])) ∧
    (Event.CursorPositionResponseEvent (4, 2) ≠
      Event.CursorPositionResponseEvent (2, 4)) ∧
    ((feedChars 200 (lit "\x1b[5;3R")
        (request_cursor_position_report 0 initState).1).map
      (fun s => (s.eventBuffer, s.dsrRequestTimes)) =
      some ([.UnknownEscapeSequence (lit "\x1b[5;3R")], [])) := by
  refine ⟨by decide, by decide, by decide⟩

/-- C2: the round trip fails.  `cursor_position (3, 4)` emits
ESC `[` `5` `;` `4` `H`; decoding those two parameters with the CPR response
parser yields the point (4, 3), the coordinate swap of the original (3, 4). -/
theorem C2_cursor_position_roundtrip_swaps :
    (cursor_position (3, 4) initState).outBuffer = [lit "\x1b[5;4H"] ∧
    executeDsrRequest (lit "\x1b[5;4R") =
      .matched (.CursorPositionResponseEvent (4, 3)) ∧
    ((4 : ℤ), (3 : ℤ)) ≠ ((3 : ℤ), (4 : ℤ)) := by
  refine ⟨by decide, by decide, by decide⟩

set_option maxHeartbeats 2000000 in
/-- C3: feeding ESC `[` `2` `0` `0` `~` `h` `e` `l` `l` `o` `~` ESC `[` `2`
`0` `1` `~` from GROUND with an empty DSR queue appends exactly one
PasteEvent carrying `hello~` (the interior tilde does not end the paste, the
end marker is stripped) and returns the parser to GROUND, for any time, prior
event buffer, last mouse position, and output buffer. -/
theorem C3_bracketed_paste_interior_tilde (now : ℤ) (evbuf : List Event)
    (lx ly : ℤ) (out : List Chars) :
    feedChars now (lit "\x1b[200~hello~\x1b[201~")
        (groundState evbuf [] lx ly out) =
      some (groundState (evbuf ++ [.PasteEvent (lit "hello~")]) [] lx ly out) := by
  simp +decide [feedChars, feed1, execute, executeGeneric, groundState, pruneDsr,
    lit, BRACKETED_PASTE_START, BRACKETED_PASTE_END, FOCUS_IN, FOCUS_OUT,
    isParamChar, List.isSuffixOf, ansiLookup, ANSI_ESCAPES, parseMouseSGR,
    takeDigits]

/-- C7: `events` returns the current event buffer and resets it, so a second
call with no intervening input returns the empty list. -/
theorem C7_events_idempotent_drain (st : TerminalState) :
    (events st).1 = st.eventBuffer ∧
    (events st).2 = { st with eventBuffer := [] } ∧
    (events (events st).2).1 = [] :=
  ⟨rfl, rfl, rfl⟩

/-- C5 counterexample: exception for b = ESC.  From EXECUTE_NEXT (reached by
feeding ESC `O`), feeding ESC does not append-and-finalize: the result
differs from finalizing the appended buffer, because the ESC branch of the
feed routine takes priority and starts a fresh escape, leaving state ESCAPE,
a one-character buffer, and no event. -/
theorem C5_escape_byte_cancels_execute_next :
    (feedChars 0 (lit "\x1bO") initState).bind (feed1 0 '\x1b') ≠
      (feedChars 0 (lit "\x1bO") initState).bind
        (fun s => execute 0 (lit "\x1bO\x1b") s) ∧
    ((feedChars 0 (lit "\x1bO") initState).bind (feed1 0 '\x1b')).map
      (fun s => (s.state, s.escapeBuffer, s.eventBuffer)) =
      some (.ESCAPE, some ['\x1b'], []) := by
  refine ⟨by decide, by decide⟩

/-- C5 amended: in EXECUTE_NEXT, every byte other than ESC is appended to the
escape buffer and finalized via the finalization procedure; ESC instead
starts a new escape buffer holding only ESC and moves the parser to
ESCAPE. -/
theorem C5_execute_next_finalizes_amended (now : ℤ) (c : Char)
    (st : TerminalState) (buf : Chars)
    (hstate : st.state = .EXECUTE_NEXT) (hbuf : st.escapeBuffer = some buf) :
    (c ≠ '\x1b' → feed1 now c st = execute now (buf ++ [c]) st) ∧
    feed1 now '\x1b' st =
      some { st with escapeBuffer := some ['\x1b'], state := .ESCAPE } := by
  unfold feed1
  simp [hstate, hbuf]
  intro h h2
  exact absurd h2 h

/-- C5 witness: the amended theorem applied in EXECUTE_NEXT with buffer
ESC `O` and the byte `A`. -/
theorem C5_execute_next_witness :
    exNextState.state = .EXECUTE_NEXT ∧
    exNextState.escapeBuffer = some (lit "\x1bO") ∧
    'A' ≠ '\x1b' ∧
    feed1 0 'A' exNextState = execute 0 (lit "\x1bOA") exNextState :=
  ⟨rfl, rfl, by decide,
    (C5_execute_next_finalizes_amended 0 'A' exNextState (lit "\x1bO")
      rfl rfl).1 (by decide)⟩

/-- C6 counterexample: the paste buffer ESC `X` ESC `[` `2` `0` (reached by
feeding those bytes after the paste-start marker) ends with the four-byte
prefix ESC `[` `2` `0` of the paste-end marker, yet the timeout emits the
buffer unstripped, because the source looks only at the first ESC in the
buffer. -/
theorem C6_partial_marker_after_earlier_escape_kept :
    ((feedChars 0 (lit "\x1b[200~\x1bX\x1b[20") initState).bind
        (resetEscape 0)).map (fun s => s.eventBuffer) =
      some [.PasteEvent (lit "\x1bX\x1b[20")] ∧
    BRACKETED_PASTE_END.take 4 = lit "\x1b[20" ∧
    (lit "\x1bX\x1b[20" : Chars) ≠ lit "\x1bX" := by
  refine ⟨by decide, by decide, by decide⟩

/-- C6 amended: when the escape timeout fires in PASTE, exactly one
PasteEvent is appended, the parser returns to GROUND with the paste buffer
cleared, and the emitted text is the buffer with its tail stripped from the
first ESC onward when the suffix starting at that first ESC is a prefix of
the paste-end marker; otherwise the buffer is emitted unmodified. -/
theorem C6_paste_timeout_amended (now : ℤ) (st : TerminalState) (paste : Chars)
    (hstate : st.state = .PASTE) (hbuf : st.pasteBuffer = some paste) :
    ∃ emitted,
      resetEscape now st = some { st with
        pasteBuffer := none, state := .GROUND,
        eventBuffer := st.eventBuffer ++ [.PasteEvent emitted] } ∧
      (∀ i, paste.findIdx? (· = '\x1b') = some i →
          (BRACKETED_PASTE_END.take (paste.length - i) = paste.drop i →
              emitted = paste.take i) ∧
          (BRACKETED_PASTE_END.take (paste.length - i) ≠ paste.drop i →
              emitted = paste)) ∧
      (paste.findIdx? (· = '\x1b') = none → emitted = paste) := by
  unfold resetEscape
  simp only [hstate, hbuf, if_pos rfl]
  refine ⟨_, rfl, ?_, ?_⟩
  · intro i hi
    simp only [hi]
    constructor
    · intro he; simp [he]
    · intro he; simp [he]
  · intro h
    simp [h]

/-- C6 witness: the amended theorem applied to a paste buffer `hi` ESC `[`
`2` `0` whose cut-off end marker starts at the first ESC. -/
theorem C6_paste_timeout_witness :
    pasteCutState.state = .PASTE ∧
    pasteCutState.pasteBuffer = some (lit "hi\x1b[20") ∧
    (∃ emitted,
      resetEscape 0 pasteCutState = some { pasteCutState with
        pasteBuffer := none, state := .GROUND,
        eventBuffer := pasteCutState.eventBuffer ++ [.PasteEvent emitted] } ∧
      (∀ i, (lit "hi\x1b[20").findIdx? (· = '\x1b') = some i →
          (BRACKETED_PASTE_END.take ((lit "hi\x1b[20").length - i) =
              (lit "hi\x1b[20").drop i → emitted = (lit "hi\x1b[20").take i) ∧
          (BRACKETED_PASTE_END.take ((lit "hi\x1b[20").length - i) ≠
              (lit "hi\x1b[20").drop i → emitted = lit "hi\x1b[20")) ∧
      ((lit "hi\x1b[20").findIdx? (· = '\x1b') = none →
          emitted = lit "hi\x1b[20")) :=
  ⟨rfl, rfl, C6_paste_timeout_amended 0 pasteCutState (lit "hi\x1b[20") rfl rfl⟩

/-- C9: any single printable ASCII byte (0x20 through 0x7e) fed in GROUND
appends exactly one KeyEvent for that character with no modifier flags and
changes nothing else, so the parser stays in GROUND. -/
theorem C9_printable_ground_keyevent (now : ℤ) (c : Char) (st : TerminalState)
    (hstate : st.state = .GROUND) (hlo : 0x20 ≤ c.toNat) (hhi : c.toNat ≤ 0x7e) :
    feed1 now c st = some { st with eventBuffer :=
      st.eventBuffer ++ [.KeyEvent [c] false false false] } := by
  have h1 : c ≠ '\x1b' := by intro h; subst h; simp at hlo
  have h2 : c ≠ '\x7f' := by intro h; subst h; simp at hhi
  have h3 : c ≠ '\x9b' := by intro h; subst h; simp at hhi
  have h4 : ¬ c.toNat < 0x20 := by omega
  unfold feed1
  simp [hstate, h1, h2, h3, h4]

/-- C9 witness: the printable byte `a` fed to the freshly constructed
terminal state. -/
theorem C9_printable_ground_witness :
    initState.state = .GROUND ∧ 0x20 ≤ 'a'.toNat ∧ 'a'.toNat ≤ 0x7e ∧
    feed1 0 'a' initState = some { initState with eventBuffer :=
      initState.eventBuffer ++ [.KeyEvent ['a'] false false false] } :=
  ⟨rfl, by decide, by decide,
    C9_printable_ground_keyevent 0 'a' initState rfl (by decide) (by decide)⟩

/-- Dropping a prefix by a predicate twice is the same as dropping it once. -/
theorem dropWhile_self_idem (p : ℤ → Bool) (l : List ℤ) :
    (l.dropWhile p).dropWhile p = l.dropWhile p := by
  induction l with
  | nil => rfl
  | cons a t ih =>
    by_cases h : p a
    · simp [List.dropWhile_cons, h, ih]
    · simp [List.dropWhile_cons, h]

/-- On a time-sorted queue, the front-pruning loop removes exactly the stale
requests. -/
theorem sorted_dropWhile_eq_filter (now : ℤ) (l : List ℤ)
    (h : l.Sorted (· ≤ ·)) :
    l.dropWhile (fun t => decide (DRS_REQUEST_TIMEOUT ≤ now - t)) =
      l.filter (fun t => decide (now - t < DRS_REQUEST_TIMEOUT)) := by
  induction l with
  | nil => rfl
  | cons a t ih =>
    rw [List.sorted_cons] at h
    by_cases ha : DRS_REQUEST_TIMEOUT ≤ now - a
    · simp [List.dropWhile_cons, List.filter_cons, ha, ih h.2]
    · have hfresh : now - a < DRS_REQUEST_TIMEOUT := by omega
      have hall : ∀ b ∈ t, now - b < DRS_REQUEST_TIMEOUT := by
        intro b hb
        have := h.1 b hb
        omega
      simp only [List.dropWhile_cons, List.filter_cons, decide_eq_true_eq,
        if_neg ha, if_pos hfresh]
      rw [List.filter_eq_self.mpr]
      intro b hb
      simpa using hall b hb

/-- An unfolding equation for `execute` with the let bindings resolved. -/
theorem execute_eq (now : ℤ) (escape : Chars) (st : TerminalState) :
    execute now escape st =
      (if (pruneDsr now st.dsrRequestTimes).isEmpty then
        some (executeGeneric escape { st with
          state := .GROUND, escapeBuffer := none,
          dsrRequestTimes := pruneDsr now st.dsrRequestTimes })
      else
        match executeDsrRequest escape with
        | .crash => none
        | .matched e =>
          some { st with
            state := .GROUND, escapeBuffer := none,
            dsrRequestTimes := (pruneDsr now st.dsrRequestTimes).tail,
            eventBuffer := st.eventBuffer ++ [e] }
        | .noMatch =>
          some (executeGeneric escape { st with
            state := .GROUND, escapeBuffer := none,
            dsrRequestTimes := pruneDsr now st.dsrRequestTimes })) := rfl

/-- Generic classification appends at most one event and never removes
events. -/
theorem executeGeneric_events (escape : Chars) (st : TerminalState) :
    ∃ evs, (executeGeneric escape st).eventBuffer = st.eventBuffer ++ evs ∧
      evs.length ≤ 1 := by
  unfold executeGeneric
  repeat' split
  all_goals first
    | exact ⟨_, rfl, by simp⟩
    | exact ⟨[], (List.append_nil _).symm, by simp⟩

/-- Finalization appends at most one event and never removes events, however
many stale requests were pruned. -/
theorem execute_events (now : ℤ) (escape : Chars) (st st' : TerminalState)
    (h : execute now escape st = some st') :
    ∃ evs, st'.eventBuffer = st.eventBuffer ++ evs ∧ evs.length ≤ 1 := by
  rw [execute_eq] at h
  by_cases hq : (pruneDsr now st.dsrRequestTimes).isEmpty
  · rw [if_pos hq] at h
    injection h with h2
    obtain ⟨evs, he, hl⟩ := executeGeneric_events escape
      { st with
        state := .GROUND, escapeBuffer := none,
        dsrRequestTimes := pruneDsr now st.dsrRequestTimes }
    exact ⟨evs, by rw [← h2]; exact he, hl⟩
  · rw [if_neg hq] at h
    cases hdsr : executeDsrRequest escape with
    | crash => rw [hdsr] at h; exact absurd h (by simp)
    | noMatch =>
      rw [hdsr] at h
      injection h with h2
      obtain ⟨evs, he, hl⟩ := executeGeneric_events escape
        { st with
          state := .GROUND, escapeBuffer := none,
          dsrRequestTimes := pruneDsr now st.dsrRequestTimes }
      exact ⟨evs, by rw [← h2]; exact he, hl⟩
    | matched e =>
      rw [hdsr] at h
      injection h with h2
      exact ⟨[e], by rw [← h2], by simp⟩

/-- Finalizing with a pre-pruned queue produces the identical result, so the
pruned requests leave no trace. -/
theorem execute_prune_invariant (now : ℤ) (escape : Chars) (st : TerminalState) :
    execute now escape st =
      execute now escape { st with
        dsrRequestTimes := pruneDsr now st.dsrRequestTimes } := by
  simp only [execute_eq, pruneDsr]
  rw [dropWhile_self_idem]

/-- C8: during finalization with a time-sorted request queue, exactly the
requests at least DRS_REQUEST_TIMEOUT old are removed (they sit at the front
of the FIFO), their removal is silent — finalizing is indistinguishable from
finalizing with the already-pruned queue — and parsing of the current escape
continues, appending at most the one event of its classification. -/
theorem C8_stale_requests_pruned_silently (now : ℤ) (escape : Chars)
    (st : TerminalState) (hsorted : st.dsrRequestTimes.Sorted (· ≤ ·)) :
    execute now escape st =
      execute now escape { st with
        dsrRequestTimes := pruneDsr now st.dsrRequestTimes } ∧
    pruneDsr now st.dsrRequestTimes =
      st.dsrRequestTimes.filter (fun t => decide (now - t < DRS_REQUEST_TIMEOUT)) ∧
    ∀ st', execute now escape st = some st' →
      ∃ evs, st'.eventBuffer = st.eventBuffer ++ evs ∧ evs.length ≤ 1 :=
  ⟨execute_prune_invariant now escape st,
   sorted_dropWhile_eq_filter now st.dsrRequestTimes hsorted,
   fun st' h => execute_events now escape st st' h⟩

/-- C8 witness: a queue with requests at times 0 and 200 finalized at time
210: the first request is stale, the second fresh. -/
theorem C8_prune_witness :
    twoRequestState.dsrRequestTimes.Sorted (· ≤ ·) ∧
    (execute 210 (lit "\x1b[A") twoRequestState =
      execute 210 (lit "\x1b[A") { twoRequestState with
        dsrRequestTimes := pruneDsr 210 twoRequestState.dsrRequestTimes } ∧
     pruneDsr 210 twoRequestState.dsrRequestTimes =
      twoRequestState.dsrRequestTimes.filter
        (fun t => decide (210 - t < DRS_REQUEST_TIMEOUT)) ∧
     ∀ st', execute 210 (lit "\x1b[A") twoRequestState = some st' →
      ∃ evs, st'.eventBuffer = twoRequestState.eventBuffer ++ evs ∧
        evs.length ≤ 1) :=
  ⟨by decide, C8_stale_requests_pruned_silently 210 (lit "\x1b[A")
    twoRequestState (by decide)⟩

/-- A nonempty all-digit run followed by a non-digit parses as one greedy
group. -/
theorem takeDigits_append (ds r : Chars) (hne : ds ≠ [])
    (hds : ∀ x ∈ ds, x.isDigit)
    (hr : ∀ x, r.head? = some x → x.isDigit = false) :
    takeDigits (ds ++ r) = some (ds, r) := by
  unfold takeDigits
  rw [List.span_eq_take_drop]
  rw [List.takeWhile_append_of_pos hds, List.dropWhile_append_of_pos hds]
  cases r with
  | nil => simp [hne]
  | cons x r' =>
    have hx := hr x rfl
    simp [List.takeWhile_cons, List.dropWhile_cons, hx, hne]

/-- The SGR mouse regex accepts every assembled mouse escape and recovers its
three numeric groups and the final character. -/
theorem parseMouseSGR_mouseEscape (a b c : Chars) (last : Char)
    (ha : a ≠ []) (hda : ∀ x ∈ a, x.isDigit)
    (hb : b ≠ []) (hdb : ∀ x ∈ b, x.isDigit)
    (hc : c ≠ []) (hdc : ∀ x ∈ c, x.isDigit)
    (hlast : last = 'm' ∨ last = 'M') :
    parseMouseSGR (mouseEscape a b c last) =
      some (digitsToNat a, digitsToNat b, digitsToNat c, last) := by
  have hlastd : last.isDigit = false := by
    rcases hlast with h | h <;> subst h <;> decide
  simp only [mouseEscape, parseMouseSGR,
    takeDigits_append a (';' :: (b ++ ';' :: (c ++ [last]))) ha hda
      (by intro x hx; injection hx with hx; subst hx; decide),
    takeDigits_append b (';' :: (c ++ [last])) hb hdb
      (by intro x hx; injection hx with hx; subst hx; decide),
    takeDigits_append c [last] hc hdc
      (by intro x hx; injection hx with hx; subst hx; exact hlastd)]
  simp [hlast]

/-- A masked bit is nonzero exactly when the corresponding bit is set. -/
theorem prop_and_two_pow (n i : ℕ) :
    (n &&& 2 ^ i ≠ 0) = (n.testBit i = true) := by
  rw [Nat.and_two_pow]
  cases h : n.testBit i <;> simp

/-- Boolean form of `prop_and_two_pow`, matching Python `bool(info & mask)`. -/
theorem decide_and_two_pow (n i : ℕ) :
    decide (n &&& 2 ^ i ≠ 0) = n.testBit i := by
  rw [Nat.and_two_pow]
  cases h : n.testBit i <;> simp

/-- Mask 64 tests bit 6. -/
theorem prop_and_64 (n : ℕ) : (n &&& 64 ≠ 0) = (n.testBit 6 = true) :=
  prop_and_two_pow n 6

/-- Mask 32 tests bit 5. -/
theorem prop_and_32 (n : ℕ) : (n &&& 32 ≠ 0) = (n.testBit 5 = true) :=
  prop_and_two_pow n 5

/-- Mask 1 tests bit 0. -/
theorem prop_and_1 (n : ℕ) : (n &&& 1 ≠ 0) = (n.testBit 0 = true) :=
  prop_and_two_pow n 0

/-- Mask 4 tests bit 2 (shift). -/
theorem decide_and_4 (n : ℕ) : decide (n &&& 4 ≠ 0) = n.testBit 2 :=
  decide_and_two_pow n 2

/-- Mask 8 tests bit 3 (alt). -/
theorem decide_and_8 (n : ℕ) : decide (n &&& 8 ≠ 0) = n.testBit 3 :=
  decide_and_two_pow n 3

/-- Mask 16 tests bit 4 (ctrl). -/
theorem decide_and_16 (n : ℕ) : decide (n &&& 16 ≠ 0) = n.testBit 4 :=
  decide_and_two_pow n 4

/-- The list-indexing button rule of the source agrees with the spec wording
of `info mod 4`. -/
theorem buttonOfNat_mod_eq_spec (n : ℕ) :
    buttonOfNat (n % 4) = specMouseButton n := by
  unfold buttonOfNat specMouseButton
  have h : n % 4 = 0 ∨ n % 4 = 1 ∨ n % 4 = 2 ∨ n % 4 = 3 := by omega
  rcases h with h | h | h | h <;> simp [h]

/-- Finalizing an assembled SGR mouse escape with an empty DSR queue yields
exactly one MouseEvent decoded per the spec rules, and records the new mouse
position. -/
theorem execute_mouseEscape (now : ℤ) (a b c : Chars) (last : Char)
    (evbuf : List Event) (lx ly : ℤ) (out : List Chars)
    (ha : a ≠ []) (hda : ∀ x ∈ a, x.isDigit)
    (hb : b ≠ []) (hdb : ∀ x ∈ b, x.isDigit)
    (hc : c ≠ []) (hdc : ∀ x ∈ c, x.isDigit)
    (hlast : last = 'm' ∨ last = 'M') :
    execute now (mouseEscape a b c last) (groundState evbuf [] lx ly out) =
      some (groundState
        (evbuf ++ [.MouseEvent
          ((digitsToNat b : ℤ) - 1, (digitsToNat c : ℤ) - 1)
          (specMouseFinalButton (digitsToNat a))
          (specMouseEventType (digitsToNat a) last)
          ((digitsToNat a).testBit 3) ((digitsToNat a).testBit 4)
          ((digitsToNat a).testBit 2)
          (((digitsToNat b : ℤ) - 1) - lx) (((digitsToNat c : ℤ) - 1) - ly) 0])
        [] ((digitsToNat b : ℤ) - 1) ((digitsToNat c : ℤ) - 1) out) := by
  have hne1 : mouseEscape a b c last ≠ BRACKETED_PASTE_START := by
    simp +decide [mouseEscape, BRACKETED_PASTE_START, lit]
  have hne2 : mouseEscape a b c last ≠ FOCUS_IN := by
    simp +decide [mouseEscape, FOCUS_IN, lit]
  have hne3 : mouseEscape a b c last ≠ FOCUS_OUT := by
    simp +decide [mouseEscape, FOCUS_OUT, lit]
  rw [execute_eq]
  simp only [groundState, pruneDsr, List.dropWhile_nil, List.isEmpty_nil,
    if_true]
  unfold executeGeneric
  rw [if_neg hne1, if_neg hne2, if_neg hne3,
    parseMouseSGR_mouseEscape a b c last ha hda hb hdb hc hdc hlast]
  simp only [buttonOfNat_mod_eq_spec]
  simp only [specMouseEventType, specMouseFinalButton, prop_and_64,
    prop_and_32, prop_and_1, decide_and_4, decide_and_8, decide_and_16,
    decide_eq_true_eq, groundState]

set_option maxHeartbeats 2000000 in
/-- C4: finalizing ESC `[` `<` info `;` x `;` y (`m`|`M`) with an empty DSR
queue converts the 1-based coordinates to 0-based, reports the deltas from
the previously recorded position and updates it, and chooses button, event
type and the shift/alt/ctrl flags by the spec rules (button = info mod 4
mapped over left/middle/right/no-button; bit 6 forces a scroll event with
no-button; else bit 5 means mouse-move; else `m` means mouse-up; else
mouse-down unless no-button; shift/alt/ctrl are bits 2/3/4).  In particular
ESC `[` `<` `0` `;` `1` `0` `;` `5` `M` fed from GROUND with no recorded
position yields MouseEvent(pos=(9,4), left, mouse-down, dx=9, dy=4). -/
theorem C4_sgr_mouse_decode (now : ℤ) (a b c : Chars) (last : Char)
    (evbuf : List Event) (lx ly : ℤ) (out : List Chars)
    (ha : a ≠ []) (hda : ∀ x ∈ a, x.isDigit)
    (hb : b ≠ []) (hdb : ∀ x ∈ b, x.isDigit)
    (hc : c ≠ []) (hdc : ∀ x ∈ c, x.isDigit)
    (hlast : last = 'm' ∨ last = 'M') :
    (execute now (mouseEscape a b c last) (groundState evbuf [] lx ly out) =
      some (groundState
        (evbuf ++ [.MouseEvent
          ((digitsToNat b : ℤ) - 1, (digitsToNat c : ℤ) - 1)
          (specMouseFinalButton (digitsToNat a))
          (specMouseEventType (digitsToNat a) last)
          ((digitsToNat a).testBit 3) ((digitsToNat a).testBit 4)
          ((digitsToNat a).testBit 2)
          (((digitsToNat b : ℤ) - 1) - lx) (((digitsToNat c : ℤ) - 1) - ly) 0])
        [] ((digitsToNat b : ℤ) - 1) ((digitsToNat c : ℤ) - 1) out)) ∧
    feedChars now (lit "\x1b[<0;10;5M") (groundState evbuf [] 0 0 out) =
      some (groundState
        (evbuf ++ [.MouseEvent (9, 4) .left .mouse_down false false false 9 4 0])
        [] 9 4 out) :=
  ⟨execute_mouseEscape now a b c last evbuf lx ly out
      ha hda hb hdb hc hdc hlast,
   by simp +decide [feedChars, feed1, execute, executeGeneric, groundState,
     pruneDsr, lit, BRACKETED_PASTE_START, BRACKETED_PASTE_END, FOCUS_IN,
     FOCUS_OUT, isParamChar, List.isSuffixOf, ansiLookup, ANSI_ESCAPES,
     parseMouseSGR, takeDigits, buttonOfNat, digitsToNat]⟩

/-- C4 witness: the decode rule applied to info `0`, x `10`, y `5`, final
`M` from a fresh ground state. -/
theorem C4_sgr_mouse_witness :
    (lit "0" ≠ [] ∧ lit "10" ≠ [] ∧ lit "5" ≠ [] ∧
     (∀ x ∈ lit "0", x.isDigit) ∧ (∀ x ∈ lit "10", x.isDigit) ∧
     (∀ x ∈ lit "5", x.isDigit) ∧ ('M' = 'm' ∨ 'M' = 'M')) ∧
    ((execute 0 (mouseEscape (lit "0") (lit "10") (lit "5") 'M')
        (groundState [] [] 0 0 []) =
      some (groundState
        ([] ++ [.MouseEvent
          ((digitsToNat (lit "10") : ℤ) - 1, (digitsToNat (lit "5") : ℤ) - 1)
          (specMouseFinalButton (digitsToNat (lit "0")))
          (specMouseEventType (digitsToNat (lit "0")) 'M')
          ((digitsToNat (lit "0")).testBit 3)
          ((digitsToNat (lit "0")).testBit 4)
          ((digitsToNat (lit "0")).testBit 2)
          (((digitsToNat (lit "10") : ℤ) - 1) - 0)
          (((digitsToNat (lit "5") : ℤ) - 1) - 0) 0])
        [] ((digitsToNat (lit "10") : ℤ) - 1)
        ((digitsToNat (lit "5") : ℤ) - 1) [])) ∧
     feedChars 0 (lit "\x1b[<0;10;5M") (groundState [] [] 0 0 []) =
      some (groundState
        ([] ++ [.MouseEvent (9, 4) .left .mouse_down false false false 9 4 0])
        [] 9 4 [])) :=
  ⟨⟨by decide, by decide, by decide, by decide, by decide, by decide,
    by decide⟩,
   C4_sgr_mouse_decode 0 (lit "0") (lit "10") (lit "5") 'M' [] 0 0 []
     (by decide) (by decide) (by decide) (by decide) (by decide) (by decide)
     (by decide)⟩

/-- Generic classification touches only the event buffer and mouse position,
except that the bracketed-paste start marker enters PASTE with a fresh paste
buffer. -/
theorem executeGeneric_shape (escape : Chars) (st : TerminalState) :
    (escape = BRACKETED_PASTE_START →
      executeGeneric escape st =
        { st with state := .PASTE, pasteBuffer := some [] }) ∧
    (escape ≠ BRACKETED_PASTE_START →
      (executeGeneric escape st).state = st.state ∧
      (executeGeneric escape st).pasteBuffer = st.pasteBuffer ∧
      (executeGeneric escape st).escapeBuffer = st.escapeBuffer) := by
  constructor
  · intro h
    unfold executeGeneric
    rw [if_pos h]
  · intro h
    unfold executeGeneric
    rw [if_neg h]
    repeat' split
    all_goals exact ⟨rfl, rfl, rfl⟩

/-- Finalization always clears the escape buffer; it ends in PASTE with a
fresh paste buffer exactly for the bracketed-paste start marker and in GROUND
with the paste buffer untouched otherwise. -/
theorem execute_shape (now : ℤ) (escape : Chars) (st st' : TerminalState)
    (h : execute now escape st = some st') :
    st'.escapeBuffer = none ∧
    (escape = BRACKETED_PASTE_START →
      st'.state = .PASTE ∧ st'.pasteBuffer = some []) ∧
    (escape ≠ BRACKETED_PASTE_START →
      st'.state = .GROUND ∧ st'.pasteBuffer = st.pasteBuffer) := by
  rw [execute_eq] at h
  by_cases hq : (pruneDsr now st.dsrRequestTimes).isEmpty
  · rw [if_pos hq] at h
    injection h with h2
    by_cases hesc : escape = BRACKETED_PASTE_START
    · have := (executeGeneric_shape escape
        { st with
          state := .GROUND, escapeBuffer := none,
          dsrRequestTimes := pruneDsr now st.dsrRequestTimes }).1 hesc
      rw [this] at h2
      subst h2
      exact ⟨rfl, fun _ => ⟨rfl, rfl⟩, fun hne => absurd hesc hne⟩
    · obtain ⟨h1, h2', h3⟩ := (executeGeneric_shape escape
        { st with
          state := .GROUND, escapeBuffer := none,
          dsrRequestTimes := pruneDsr now st.dsrRequestTimes }).2 hesc
      subst h2
      exact ⟨h3, fun he => absurd he hesc, fun _ => ⟨h1, h2'⟩⟩
  · rw [if_neg hq] at h
    cases hdsr : executeDsrRequest escape with
    | crash => rw [hdsr] at h; exact absurd h (by simp)
    | matched e =>
      rw [hdsr] at h
      injection h with h2
      subst h2
      refine ⟨rfl, ?_, fun _ => ⟨rfl, rfl⟩⟩
      intro he
      subst he
      have hnm : executeDsrRequest BRACKETED_PASTE_START = DsrResult.noMatch := by
        decide
      rw [hnm] at hdsr
      simp at hdsr
    | noMatch =>
      rw [hdsr] at h
      injection h with h2
      by_cases hesc : escape = BRACKETED_PASTE_START
      · have := (executeGeneric_shape escape
          { st with
            state := .GROUND, escapeBuffer := none,
            dsrRequestTimes := pruneDsr now st.dsrRequestTimes }).1 hesc
        rw [this] at h2
        subst h2
        exact ⟨rfl, fun _ => ⟨rfl, rfl⟩, fun hne => absurd hesc hne⟩
      · obtain ⟨h1, h2', h3⟩ := (executeGeneric_shape escape
          { st with
            state := .GROUND, escapeBuffer := none,
            dsrRequestTimes := pruneDsr now st.dsrRequestTimes }).2 hesc
        subst h2
        exact ⟨h3, fun he => absurd he hesc, fun _ => ⟨h1, h2'⟩⟩

/-- Introduction rule for the buffer invariant. -/
theorem Inv_mk (st : TerminalState)
    (h1 : st.pasteBuffer.isSome ↔ st.state = .PASTE)
    (h2 : st.escapeBuffer.isSome ↔
      st.state = .ESCAPE ∨ st.state = .CSI ∨ st.state = .OSC ∨
      st.state = .PARAMS ∨ st.state = .EXECUTE_NEXT) : Inv st :=
  ⟨h1, h2⟩

/-- Finalization from a state without a paste buffer reestablishes the buffer
invariant. -/
theorem execute_inv (now : ℤ) (escape : Chars) (st st' : TerminalState)
    (hpaste : st.pasteBuffer = none) (h : execute now escape st = some st') :
    Inv st' := by
  obtain ⟨he, hs, hn⟩ := execute_shape now escape st st' h
  by_cases hesc : escape = BRACKETED_PASTE_START
  · obtain ⟨h1, h2⟩ := hs hesc
    exact Inv_mk st' (by simp [h1, h2]) (by simp [he, h1])
  · obtain ⟨h1, h2⟩ := hn hesc
    exact Inv_mk st' (by simp [h1, h2, hpaste]) (by simp [he, h1])

/-- The escape-timeout callback preserves the buffer invariant. -/
theorem resetEscape_inv (now : ℤ) (st st' : TerminalState)
    (hinv : Inv st) (h : resetEscape now st = some st') : Inv st' := by
  unfold resetEscape at h
  by_cases hst : st.state = .PASTE
  · rw [if_pos hst] at h
    cases hbuf : st.pasteBuffer with
    | none => simp [hbuf] at h
    | some paste =>
      simp only [hbuf] at h
      injection h with h2
      subst h2
      have hesc : st.escapeBuffer.isSome = false := by
        have h2' := hinv.2
        rw [hst] at h2'
        simpa using h2'
      exact Inv_mk _ (by simp) (by simp [hesc])
  · rw [if_neg hst] at h
    cases hbuf : st.escapeBuffer with
    | none => simp [hbuf] at h
    | some buf =>
      simp only [hbuf] at h
      have hpaste : st.pasteBuffer = none := by
        cases hp : st.pasteBuffer with
        | none => rfl
        | some p => exact absurd (hinv.1.1 (by simp [hp])) hst
      exact execute_inv now buf st st' hpaste h

/-- Feeding one character preserves the buffer invariant. -/
theorem feed1_inv (now : ℤ) (c : Char) (st st' : TerminalState)
    (hinv : Inv st) (h : feed1 now c st = some st') : Inv st' := by
  have hpaste_of : st.state ≠ .PASTE → st.pasteBuffer = none := by
    intro hne
    cases hp : st.pasteBuffer with
    | none => rfl
    | some p => exact absurd (hinv.1.1 (by simp [hp])) hne
  have hescb_of : ∀ s, st.state = s →
      (s = .ESCAPE ∨ s = .CSI ∨ s = .OSC ∨ s = .PARAMS ∨ s = .EXECUTE_NEXT →
        False) → st.escapeBuffer.isSome = false := by
    intro s hs hns
    have h2' := hinv.2
    rw [hs] at h2'
    by_cases hsome : st.escapeBuffer.isSome
    · exact absurd (h2'.1 hsome) hns
    · simpa using hsome
  unfold feed1 at h
  by_cases h1 : st.state = .OSC
  · rw [if_pos h1] at h
    cases hbuf : st.escapeBuffer with
    | none => simp [hbuf] at h
    | some buf =>
      simp only [hbuf] at h
      split at h
      · exact execute_inv now (buf ++ [c]) st st'
          (hpaste_of (by rw [h1]; decide)) h
      · injection h with h2
        subst h2
        refine Inv_mk _ ?_ ?_
        · simpa [h1] using hinv.1
        · simp [h1]
  · rw [if_neg h1] at h
    by_cases h2 : st.state ≠ .PASTE ∧ c = '\x1b'
    · rw [if_pos h2] at h
      injection h with h2'
      subst h2'
      exact Inv_mk _ (by simp [hpaste_of h2.1]) (by simp)
    · rw [if_neg h2] at h
      by_cases h3 : st.state = .EXECUTE_NEXT
      · rw [if_pos h3] at h
        cases hbuf : st.escapeBuffer with
        | none => simp [hbuf] at h
        | some buf =>
          simp only [hbuf] at h
          exact execute_inv now (buf ++ [c]) st st'
            (hpaste_of (by rw [h3]; decide)) h
      · rw [if_neg h3] at h
        by_cases h4 : st.state = .PASTE
        · rw [if_pos h4] at h
          cases hbuf : st.pasteBuffer with
          | none => simp [hbuf] at h
          | some buf =>
            simp only [hbuf] at h
            have hesc : st.escapeBuffer.isSome = false :=
              hescb_of .PASTE h4 (by decide)
            split at h
            · injection h with h2'
              subst h2'
              exact Inv_mk _ (by simp) (by simp [hesc])
            · injection h with h2'
              subst h2'
              exact Inv_mk _ (by simp [h4]) (by simp [h4, hesc])
        · rw [if_neg h4] at h
          by_cases h5 : st.state = .GROUND
          · rw [if_pos h5] at h
            split at h
            · exact execute_inv now [c] st st' (hpaste_of (by rw [h5]; decide)) h
            · injection h with h2'
              subst h2'
              exact Inv_mk _ (by simpa [h5] using hinv.1)
                (by simpa [h5] using hinv.2)
          · rw [if_neg h5] at h
            by_cases h6 : st.state = .ESCAPE
            · rw [if_pos h6] at h
              cases hbuf : st.escapeBuffer with
              | none => simp [hbuf] at h
              | some buf =>
                simp only [hbuf] at h
                split at h
                · injection h with h2'
                  subst h2'
                  exact Inv_mk _ (by simpa [h6] using hinv.1) (by simp)
                · split at h
                  · injection h with h2'
                    subst h2'
                    exact Inv_mk _ (by simpa [h6] using hinv.1) (by simp)
                  · split at h
                    · injection h with h2'
                      subst h2'
                      exact Inv_mk _ (by simpa [h6] using hinv.1) (by simp)
                    · exact execute_inv now (buf ++ [c]) st st'
                        (hpaste_of (by rw [h6]; decide)) h
            · rw [if_neg h6] at h
              by_cases h7 : st.state = .CSI
              · rw [if_pos h7] at h
                cases hbuf : st.escapeBuffer with
                | none => simp [hbuf] at h
                | some buf =>
                  simp only [hbuf] at h
                  split at h
                  · injection h with h2'
                    subst h2'
                    exact Inv_mk _ (by simpa [h7] using hinv.1) (by simp)
                  · split at h
                    · injection h with h2'
                      subst h2'
                      exact Inv_mk _ (by simpa [h7] using hinv.1) (by simp)
                    · split at h
                      · exact execute_inv now (buf ++ [c]) st st'
                          (hpaste_of (by rw [h7]; decide)) h
                      · injection h with h2'
                        subst h2'
                        exact Inv_mk _ (by simpa [h7] using hinv.1) (by simp)
              · rw [if_neg h7] at h
                cases hbuf : st.escapeBuffer with
                | none => simp [hbuf] at h
                | some buf =>
                  simp only [hbuf] at h
                  split at h
                  · exact execute_inv now (buf ++ [c]) st st'
                      (hpaste_of h4) h
                  · injection h with h2'
                    subst h2'
                    refine Inv_mk _ (by simpa using hinv.1) ?_
                    have : st.state = .PARAMS := by
                      cases hs : st.state <;>
                        simp [hs] at h1 h3 h4 h5 h6 h7 ⊢
                    simp [this]

/-- C10: in every state reachable from construction by fed characters and
timeouts, the paste buffer exists exactly in PASTE and the escape buffer
exactly in ESCAPE, CSI, OSC, PARAMS or EXECUTE_NEXT; and finalization always
clears the escape buffer and leaves GROUND, except that the bracketed-paste
start marker leaves PASTE with a fresh paste buffer. -/
theorem C10_parser_buffer_invariant :
    (∀ st, Reachable st → Inv st) ∧
    (∀ (now : ℤ) (escape : Chars) (st st' : TerminalState),
      st.pasteBuffer = none → execute now escape st = some st' →
      st'.escapeBuffer = none ∧
      (escape = BRACKETED_PASTE_START →
        st'.state = .PASTE ∧ st'.pasteBuffer = some []) ∧
      (escape ≠ BRACKETED_PASTE_START →
        st'.state = .GROUND ∧ st'.pasteBuffer = none)) := by
  constructor
  · intro st hr
    induction hr with
    | init =>
      exact Inv_mk _ (by simp [initState, groundState])
        (by simp [initState, groundState])
    | feed hr hstep ih => exact feed1_inv _ _ _ _ ih hstep
    | timeout hr hstep ih => exact resetEscape_inv _ _ _ ih hstep
  · intro now escape st st' hpaste h
    obtain ⟨he, hs, hn⟩ := execute_shape now escape st st' h
    exact ⟨he, hs, fun hne => ⟨(hn hne).1, (hn hne).2.trans hpaste⟩⟩

/-- C10 witness: the invariant holds at the freshly constructed state. -/
theorem C10_invariant_witness : Inv initState :=
  C10_parser_buffer_invariant.1 initState Reachable.init
